import Mathlib

/-!
# Verification of the trlx PPO training core

Shallow embedding of `trlx/model/accelerate_ppo_model.py`: the KL-coefficient
controllers, the PPO loss (GAE advantages/returns, clipped policy and value
losses), and the structure of the `learn` training loop.

Real-valued tensors are modelled over `ℚ`; a tensor row is a `List ℚ` (or an
index function `ℕ → ℚ` together with an explicit length).  Reductions such as
`torch.mean` are modelled on flattened element lists, matching the all-element
mean that torch computes.  Line numbers refer to
`src/trlx/model/accelerate_ppo_model.py`.
-/

set_option autoImplicit false
set_option linter.unusedVariables false

namespace TrlxPPO

/-! ## numpy / torch primitives used by the source -/

/-- `np.clip(x, lo, hi)` / `torch.clamp(x, lo, hi)`: the lower bound is applied
first, then the upper bound. -/
def npClip (x lo hi : ℚ) : ℚ := min (max x lo) hi

/-- Mean of a list of scalars (`torch.mean` over all elements).  The empty mean
is `0/0 = 0` in `ℚ`; every use in the claims is over nonempty data. -/
def listMean (xs : List ℚ) : ℚ := xs.sum / xs.length

/-! ## KL controllers (lines 24–44) -/

/-- State of `AdaptiveKLController` (lines 24–28): the constructor stores the
three arguments unchanged, with no validation. -/
structure AdaptiveKLController where
  value : ℚ
  target : ℚ
  horizon : ℚ
deriving DecidableEq

/-- `AdaptiveKLController.__init__` (lines 25–28): plain field assignments. -/
def AdaptiveKLController.init (init_kl_coef target horizon : ℚ) :
    AdaptiveKLController :=
  { value := init_kl_coef, target := target, horizon := horizon }

/-- `AdaptiveKLController.update` (lines 30–34):
`proportional_error = np.clip(current / target - 1, -0.2, 0.2)`;
`mult = 1 + proportional_error * n_steps / horizon`; `value *= mult`. -/
def AdaptiveKLController.update (c : AdaptiveKLController)
    (current n_steps : ℚ) : AdaptiveKLController :=
  let proportional_error := npClip (current / c.target - 1) (-(1/5)) (1/5)
  let mult := 1 + proportional_error * n_steps / c.horizon
  { c with value := c.value * mult }

/-- The multiplier applied to `value` by one `update(current, n_steps)` call.
It does not depend on the current `value`. -/
def AdaptiveKLController.mult (c : AdaptiveKLController)
    (current n_steps : ℚ) : ℚ :=
  1 + npClip (current / c.target - 1) (-(1/5)) (1/5) * n_steps / c.horizon

/-- Modelled from the spec: §7 demands that Adaptive-controller construction
reject a zero `target` or a non-positive `horizon` ("fail fast at
construction").  No such checked constructor exists in the source; this
definition follows the spec's words, for comparison with
`AdaptiveKLController.init`. -/
def specCheckedAdaptiveInit (init_kl_coef target horizon : ℚ) :
    Option AdaptiveKLController :=
  if target = 0 ∨ horizon ≤ 0 then none
  else some (AdaptiveKLController.init init_kl_coef target horizon)

/-- State of `FixedKLController` (lines 38–44). -/
structure FixedKLController where
  value : ℚ
deriving DecidableEq

/-- `FixedKLController.__init__` (lines 40–41). -/
def FixedKLController.init (kl_coef : ℚ) : FixedKLController :=
  { value := kl_coef }

/-- `FixedKLController.update` (lines 43–44): the body is `pass`. -/
def FixedKLController.update (c : FixedKLController)
    (current n_steps : ℚ) : FixedKLController :=
  c

/-! ## GAE advantages and returns (`loss`, lines 68–84)

A batch row of values/rewards over the response window is an index function
`ℕ → ℚ` read on `[0, gen_len)`; the loop is independent across batch rows, so
the row-level embedding captures the elementwise batch statement. -/

/-- `nextvalues` (line 72): `all_values[:, t + 1] if t < gen_len - 1 else 0.0`. -/
def nextvalues (V : ℕ → ℚ) (gen_len t : ℕ) : ℚ :=
  if t < gen_len - 1 then V (t + 1) else 0

/-- The backward loop of lines 71–81, by recursion on the number of remaining
iterations: `gaeDown γ λ R V gen_len lastgaelam k` runs the iterations
`t = k-1, k-2, …, 0` and returns the elements appended to
`advantages_reversed` by those iterations, in appending order. -/
def gaeDown (gamma lam : ℚ) (R V : ℕ → ℚ) (gen_len : ℕ) :
    ℚ → ℕ → List ℚ
  | _, 0 => []
  | lastgaelam, t + 1 =>
    let delta := R t + gamma * nextvalues V gen_len t - V t
    let lg := delta + gamma * lam * lastgaelam
    lg :: gaeDown gamma lam R V gen_len lg t

/-- `advantages` (lines 68–82): the loop starts from `lastgaelam = 0`, runs
over `reversed(range(gen_len))`, and the accumulated list is reversed back
into time order. -/
def advantages (gamma lam : ℚ) (R V : ℕ → ℚ) (gen_len : ℕ) : List ℚ :=
  (gaeDown gamma lam R V gen_len 0 gen_len).reverse

/-- `returns = advantages + all_values` (line 84), an elementwise sum over the
response window, computed from the raw pre-whitening advantages. -/
def returnsGAE (gamma lam : ℚ) (R V : ℕ → ℚ) (gen_len : ℕ) : List ℚ :=
  List.zipWith (· + ·) (advantages gamma lam R V gen_len)
    ((List.range gen_len).map V)

/-- The GAE recurrence exactly as the claim words it, by recursion on the
distance `gap = T - t` from the end of the window: `specGAE γ λ R V gap t` is
the value `lastgae` holds after the iteration at step `t`, where
`next_value = V (t+1)` unless `t` is the last step (`gap = 1`), in which case
it is `0`, and `lastgae` starts from `0`. -/
def specGAE (gamma lam : ℚ) (R V : ℕ → ℚ) : ℕ → ℕ → ℚ
  | 0, _ => 0
  | g + 1, t =>
    (R t + gamma * (if g = 0 then 0 else V (t + 1)) - V t)
      + gamma * lam * specGAE gamma lam R V g (t + 1)

/-! ## Value loss (lines 95–103) and policy loss (lines 105–117)

The fresh forward pass (`vpred`, `logprob`) is external to this core; the
losses are modelled as functions of the already-extracted response-window
rows, flattened over batch elements and response positions exactly as
`torch.mean` flattens them. -/

/-- Modelled from the spec: `clip_by_value` lives in `trlx/utils/modeling.py`,
which is not under `src/`; §4.2 step 3 reads "clip `new_value` to
`[old_value − cliprange_value, old_value + cliprange_value]`". -/
def clip_by_value (x lo hi : ℚ) : ℚ := max (min x hi) lo

/-- `vpredclipped` (lines 95–99), elementwise over the response window. -/
def vpredclipped (cliprange_value : ℚ) (vpred all_values : List ℚ) : List ℚ :=
  List.zipWith
    (fun v w => clip_by_value v (w - cliprange_value) (w + cliprange_value))
    vpred all_values

/-- `vf_losses1 = (vpred - returns) ** 2` (line 101). -/
def vf_losses1 (vpred rets : List ℚ) : List ℚ :=
  List.zipWith (fun v r => (v - r) ^ 2) vpred rets

/-- `vf_losses2 = (vpredclipped - returns) ** 2` (line 102). -/
def vf_losses2 (cliprange_value : ℚ) (vpred all_values rets : List ℚ) :
    List ℚ :=
  List.zipWith (fun v r => (v - r) ^ 2)
    (vpredclipped cliprange_value vpred all_values) rets

/-- `vf_loss = 0.5 * torch.mean(torch.max(vf_losses1, vf_losses2))`
(line 103). -/
def vf_loss (cliprange_value : ℚ) (vpred all_values rets : List ℚ) : ℚ :=
  (1/2) * listMean (List.zipWith max (vf_losses1 vpred rets)
    (vf_losses2 cliprange_value vpred all_values rets))

/-- `pg_losses = -advantages * ratio` (line 110), with the whitened-detached
advantages and `ratio = exp(new_logprob - old_logprob)` taken as input rows. -/
def pg_losses (adv ratio : List ℚ) : List ℚ :=
  List.zipWith (fun a r => -a * r) adv ratio

/-- `pg_losses2 = -advantages * torch.clamp(ratio, 1 - cliprange,
1 + cliprange)` (lines 111–115); `torch.clamp` applies the lower bound first,
then the upper, exactly as `npClip`. -/
def pg_losses2 (cliprange : ℚ) (adv ratio : List ℚ) : List ℚ :=
  List.zipWith (fun a r => -a * npClip r (1 - cliprange) (1 + cliprange))
    adv ratio

/-- `pg_loss = torch.mean(torch.max(pg_losses, pg_losses2))` (line 117). -/
def pg_loss (cliprange : ℚ) (adv ratio : List ℚ) : ℚ :=
  listMean (List.zipWith max (pg_losses adv ratio)
    (pg_losses2 cliprange adv ratio))

/-! ## The `learn` training loop (lines 163–209) -/

/-- Counters driven by the outer `while` loop of `learn`: `iter_count` and
`epoch` (both zeroed at lines 172–173), plus `bodies`, an observation counting
how many times the loop body (one full epoch over the rollout loader) has
executed. -/
structure LoopCounters where
  iter_count : ℕ
  epoch : ℕ
  bodies : ℕ
deriving DecidableEq

/-- The `while` loop of `learn` (lines 174–209), fuel-indexed because the
source loop need not terminate.  The loop condition (lines 174–177) is
`iter_count < total_steps or epoch <= epochs`.  One body iterates the rollout
loader: each of the `nBatches` mini-batches runs `ppo_epochs` optimizer
passes, each incrementing `iter_count` by 1 (line 203), and
`post_epoch_callback` then increments `epoch` by 1 (line 124).  Returns `none`
when fuel runs out, and the final counters when the condition fails. -/
def learnLoop (total_steps epochs nBatches ppo_epochs : ℕ) :
    ℕ → LoopCounters → Option LoopCounters
  | 0, _ => none
  | fuel + 1, s =>
    if s.iter_count < total_steps ∨ s.epoch ≤ epochs then
      learnLoop total_steps epochs nBatches ppo_epochs fuel
        { iter_count := s.iter_count + nBatches * ppo_epochs
          epoch := s.epoch + 1
          bodies := s.bodies + 1 }
    else some s

/-! ## Per-mini-batch processing inside `learn` (lines 186–205) -/

/-- The controller held in `self.kl_ctl` (lines 52–59): either variant. -/
inductive KLController where
  | fixed : FixedKLController → KLController
  | adaptive : AdaptiveKLController → KLController
deriving DecidableEq

/-- Dynamic dispatch of `self.kl_ctl.update(current, n_steps)` (line 133). -/
def KLController.update : KLController → ℚ → ℚ → KLController
  | .fixed c, current, n_steps => .fixed (c.update current n_steps)
  | .adaptive c, current, n_steps => .adaptive (c.update current n_steps)

/-- The loss components stored into `self.logs` (lines 190–196); the `batch`
and `rewards` entries are references to external tensors, not modelled. -/
structure LogRecord where
  loss : ℚ
  pg_loss : ℚ
  vf_loss : ℚ
deriving DecidableEq

/-- The observable result of one `self.loss(...)` call: the returned triple
(line 120) and the `self.mean_kl` recorded at line 107. -/
structure LossOut where
  loss : ℚ
  pg_loss : ℚ
  vf_loss : ℚ
  mean_kl : ℚ
deriving DecidableEq

/-- Mutable trainer attributes touched by the inner loop of `learn` and by
`post_backward_callback`: `iter_count`, `kl_ctl`, `self.mean_kl` and
`self.logs` (Python attributes that may be unassigned, hence `Option`), and
`kl_updates`, an observation counting `kl_ctl.update` invocations. -/
structure TrainState where
  iter_count : ℕ
  kl_ctl : KLController
  mean_kl : Option ℚ
  logs : Option LogRecord
  kl_updates : ℕ
deriving DecidableEq

/-- One pass of the inner loop (lines 186–203): `self.loss` records
`self.mean_kl` (line 107) and returns the loss triple, `self.logs` is
overwritten (lines 190–196), the optimizer/scheduler step externally
(lines 199–202), and `iter_count` increments (line 203). -/
def innerPass (out : LossOut) (s : TrainState) : TrainState :=
  { s with
      mean_kl := some out.mean_kl
      logs := some ⟨out.loss, out.pg_loss, out.vf_loss⟩
      iter_count := s.iter_count + 1 }

/-- `for _ in range(ppo_epochs)` (line 186): the loss is recomputed on every
pass because the policy changed; pass `i` observes `losses i`. -/
def runPasses (losses : ℕ → LossOut) : ℕ → TrainState → TrainState
  | 0, s => s
  | k + 1, s => innerPass (losses k) (runPasses losses k s)

/-- `post_backward_callback` (lines 130–133): reads `self.logs["batch"]`
(line 131) and `self.mean_kl` (line 133); reading an unassigned attribute is a
run-failing `AttributeError`, modelled as `none`.  The evaluation branch
(lines 135–161) is external I/O and does not change these attributes. -/
def post_backward_callback (batch_size : ℚ) (s : TrainState) :
    Option TrainState :=
  match s.logs, s.mean_kl with
  | some _, some mk =>
      some { s with
               kl_ctl := s.kl_ctl.update mk batch_size
               kl_updates := s.kl_updates + 1 }
  | _, _ => none

/-- Processing of one mini-batch by `learn` (lines 186–205): `ppo_epochs`
inner passes over the same mini-batch, then exactly one
`post_backward_callback` with the configured batch size. -/
def processBatch (ppo_epochs : ℕ) (losses : ℕ → LossOut) (batch_size : ℚ)
    (s : TrainState) : Option TrainState :=
  post_backward_callback batch_size (runPasses losses ppo_epochs s)

/-- Trainer state at the very first mini-batch of a run: `iter_count = 0`
(line 172) and the attributes `self.mean_kl`, `self.logs` not yet assigned. -/
def initTrainState (kl0 : KLController) : TrainState :=
  { iter_count := 0, kl_ctl := kl0, mean_kl := none, logs := none
    kl_updates := 0 }

/-! ## Lemmas about the Adaptive controller -/

theorem AdaptiveKLController.update_value (c : AdaptiveKLController)
    (current n_steps : ℚ) :
    (c.update current n_steps).value = c.value * c.mult current n_steps := rfl

theorem AdaptiveKLController.update_target (c : AdaptiveKLController)
    (current n_steps : ℚ) :
    (c.update current n_steps).target = c.target := rfl

theorem AdaptiveKLController.update_horizon (c : AdaptiveKLController)
    (current n_steps : ℚ) :
    (c.update current n_steps).horizon = c.horizon := rfl

theorem AdaptiveKLController.iterate_update_target (c : AdaptiveKLController)
    (current n_steps : ℚ) (k : ℕ) :
    ((fun d => AdaptiveKLController.update d current n_steps)^[k] c).target
      = c.target := by
  induction k with
  | zero => rfl
  | succ m ihm =>
      rw [Function.iterate_succ_apply', AdaptiveKLController.update_target, ihm]

theorem AdaptiveKLController.iterate_update_horizon (c : AdaptiveKLController)
    (current n_steps : ℚ) (k : ℕ) :
    ((fun d => AdaptiveKLController.update d current n_steps)^[k] c).horizon
      = c.horizon := by
  induction k with
  | zero => rfl
  | succ m ihm =>
      rw [Function.iterate_succ_apply', AdaptiveKLController.update_horizon, ihm]

/-- Iterating `update` with fixed arguments multiplies `value` by the fixed
per-step multiplier at every step. -/
theorem AdaptiveKLController.iterate_update_value (c : AdaptiveKLController)
    (current n_steps : ℚ) (k : ℕ) :
    ((fun d => AdaptiveKLController.update d current n_steps)^[k] c).value
      = c.value * (c.mult current n_steps) ^ k := by
  induction k with
  | zero => simp
  | succ k ih =>
      rw [Function.iterate_succ_apply']
      rw [AdaptiveKLController.update_value, ih]
      have hmult : ((fun d => AdaptiveKLController.update d current n_steps)^[k] c).mult
          current n_steps = c.mult current n_steps := by
        unfold AdaptiveKLController.mult
        rw [AdaptiveKLController.iterate_update_target,
          AdaptiveKLController.iterate_update_horizon]
      rw [hmult]
      ring

/-! ## Lemmas about GAE -/

theorem gaeDown_eq_specGAE (gamma lam : ℚ) (R V : ℕ → ℚ) (T : ℕ) :
    ∀ k, k ≤ T →
      gaeDown gamma lam R V T (specGAE gamma lam R V (T - k) k) k
        = (List.range k).reverse.map (fun t => specGAE gamma lam R V (T - t) t) := by
  intro k
  induction k with
  | zero => intro _; simp [gaeDown]
  | succ m ih =>
      intro hm
      have hmT : m < T := hm
      have hgap : T - m = (T - (m + 1)) + 1 := by omega
      have hlg :
          (R m + gamma * nextvalues V T m - V m)
              + gamma * lam * specGAE gamma lam R V (T - (m + 1)) (m + 1)
            = specGAE gamma lam R V (T - m) m := by
        rw [hgap]
        show _ = (R m + gamma * (if T - (m + 1) = 0 then 0 else V (m + 1)) - V m)
            + gamma * lam * specGAE gamma lam R V (T - (m + 1)) (m + 1)
        have hcond : nextvalues V T m
            = (if T - (m + 1) = 0 then 0 else V (m + 1)) := by
          unfold nextvalues
          rcases Nat.lt_or_ge m (T - 1) with h | h
          · rw [if_pos h, if_neg (by omega)]
          · rw [if_neg (by omega), if_pos (by omega)]
        rw [hcond]
      show (let delta := R m + gamma * nextvalues V T m - V m
        let lg := delta + gamma * lam * specGAE gamma lam R V (T - (m + 1)) (m + 1)
        lg :: gaeDown gamma lam R V T lg m) = _
      simp only []
      rw [hlg, List.range_succ, List.reverse_append, List.map_append]
      simp only [List.reverse_singleton, List.map_cons, List.map_nil,
        List.singleton_append]
      rw [ih (Nat.le_of_lt hmT)]

theorem advantages_eq_specGAE (gamma lam : ℚ) (R V : ℕ → ℚ) (T : ℕ) :
    advantages gamma lam R V T
      = (List.range T).map (fun t => specGAE gamma lam R V (T - t) t) := by
  unfold advantages
  have h := gaeDown_eq_specGAE gamma lam R V T T le_rfl
  rw [Nat.sub_self] at h
  have h0 : specGAE gamma lam R V 0 T = 0 := rfl
  rw [h0] at h
  rw [h, ← List.map_reverse, List.reverse_reverse]

theorem advantages_length (gamma lam : ℚ) (R V : ℕ → ℚ) (T : ℕ) :
    (advantages gamma lam R V T).length = T := by
  rw [advantages_eq_specGAE]
  simp

theorem getD_map_range {α : Type} [Inhabited α] (f : ℕ → α) (T t : ℕ)
    (ht : t < T) (d : α) : ((List.range T).map f).getD t d = f t := by
  have hlen : t < ((List.range T).map f).length := by simpa using ht
  rw [List.getD_eq_getElem _ _ hlen, List.getElem_map, List.getElem_range]

theorem returnsGAE_eq (gamma lam : ℚ) (R V : ℕ → ℚ) (T : ℕ) :
    returnsGAE gamma lam R V T
      = (List.range T).map
          (fun t => specGAE gamma lam R V (T - t) t + V t) := by
  unfold returnsGAE
  rw [advantages_eq_specGAE, List.zipWith_map_left, List.zipWith_map_right,
    List.zipWith_same]

theorem specGAE_zero_rewards_zero_values (gamma lam : ℚ) :
    ∀ g t, specGAE gamma lam (fun _ => 0) (fun _ => 0) g t = 0 := by
  intro g
  induction g with
  | zero => intro t; rfl
  | succ g ih =>
      intro t
      show (0 + gamma * (if g = 0 then 0 else 0) - 0)
          + gamma * lam * specGAE gamma lam (fun _ => 0) (fun _ => 0) g (t + 1) = 0
      rw [ih (t + 1), ite_self]
      ring

/-! ## C1 and C8: the GAE claims -/

/-- C1: for every response window of length `T ≥ 1` and every row of values
`V` and rewards `R`, the `loss` operation computes advantages by the backward
GAE recurrence (`specGAE`: `next_value = V (t+1)` except `0` at the last step,
`delta = R t + γ·next_value - V t`, `lastgae = delta + γ·λ·lastgae` from `0`),
and the returns it produces satisfy `returns[t] = advantages[t] + V t`
elementwise, where the advantages are the raw pre-whitening GAE values. -/
theorem gae_recurrence_and_returns (gamma lam : ℚ) (R V : ℕ → ℚ) (T : ℕ)
    (hT : 1 ≤ T) :
    (advantages gamma lam R V T).length = T ∧
    (returnsGAE gamma lam R V T).length = T ∧
    (∀ t, t < T → (advantages gamma lam R V T).getD t 0
        = specGAE gamma lam R V (T - t) t) ∧
    (∀ t, t < T → (returnsGAE gamma lam R V T).getD t 0
        = (advantages gamma lam R V T).getD t 0 + V t) := by
  refine ⟨advantages_length gamma lam R V T, ?_, ?_, ?_⟩
  · rw [returnsGAE_eq]; simp
  · intro t ht
    rw [advantages_eq_specGAE, getD_map_range _ _ _ ht]
  · intro t ht
    rw [advantages_eq_specGAE, returnsGAE_eq, getD_map_range _ _ _ ht,
      getD_map_range _ _ _ ht]

/-- Witness for `gae_recurrence_and_returns` at γ = 1, λ = 1,
rewards ≡ 2, values `V t = t`, window length 2. -/
theorem gae_recurrence_and_returns_witness :
    (1 ≤ 2) ∧
    ((advantages 1 1 (fun _ => 2) (fun t => (t : ℚ)) 2).length = 2 ∧
    (returnsGAE 1 1 (fun _ => 2) (fun t => (t : ℚ)) 2).length = 2 ∧
    (∀ t, t < 2 → (advantages 1 1 (fun _ => 2) (fun t => (t : ℚ)) 2).getD t 0
        = specGAE 1 1 (fun _ => 2) (fun t => (t : ℚ)) (2 - t) t) ∧
    (∀ t, t < 2 → (returnsGAE 1 1 (fun _ => 2) (fun t => (t : ℚ)) 2).getD t 0
        = (advantages 1 1 (fun _ => 2) (fun t => (t : ℚ)) 2).getD t 0 + t)) :=
  ⟨by norm_num,
    gae_recurrence_and_returns 1 1 (fun _ => 2) (fun t => (t : ℚ)) 2 (by norm_num)⟩

/-- C8 as stated is false: with all rewards `0`, values constantly `1`,
γ = λ = 1 and window length 1, the bootstrap `next_value` at the last step is
`0` rather than the constant, so the advantage is `-1` (not `0`) and the
return is `0` (not the value `1`). -/
theorem gae_constant_values_counterexample :
    advantages 1 1 (fun _ => 0) (fun _ => 1) 1 = [-1] ∧
    returnsGAE 1 1 (fun _ => 0) (fun _ => 1) 1 = [0] ∧
    ¬ advantages 1 1 (fun _ => 0) (fun _ => 1) 1 = [0] ∧
    ¬ returnsGAE 1 1 (fun _ => 0) (fun _ => 1) 1 = [1] := by
  refine ⟨?_, ?_, ?_, ?_⟩ <;>
    simp [advantages, returnsGAE, gaeDown, nextvalues, List.range_succ]

/-- C8 amended: for every batch in which all rewards are zero and all value
estimates are zero, the GAE advantages are all exactly `0` and the returns
equal the values elementwise (both are the all-zero row). -/
theorem gae_zero_rewards_zero_values (gamma lam : ℚ) (T : ℕ) :
    advantages gamma lam (fun _ => 0) (fun _ => 0) T = List.replicate T 0 ∧
    returnsGAE gamma lam (fun _ => 0) (fun _ => 0) T
      = (List.range T).map (fun _ => (0 : ℚ)) := by
  constructor
  · rw [advantages_eq_specGAE]
    have h : (List.range T).map
          (fun t => specGAE gamma lam (fun _ => 0) (fun _ => 0) (T - t) t)
        = (List.range T).map (fun _ => (0 : ℚ)) := by
      apply List.map_congr_left
      intro t _
      exact specGAE_zero_rewards_zero_values gamma lam (T - t) t
    rw [h]
    simp [List.map_const']
  · rw [returnsGAE_eq]
    apply List.map_congr_left
    intro t _
    rw [specGAE_zero_rewards_zero_values gamma lam (T - t) t]
    ring

/-! ## C2 and C3: the loss claims -/

theorem listMean_replicate (n : ℕ) (c : ℚ) :
    listMean (List.replicate n c) = if n = 0 then 0 else c := by
  unfold listMean
  rcases Nat.eq_zero_or_pos n with h | h
  · subst h; simp
  · rw [if_neg (Nat.pos_iff_ne_zero.mp h)]
    rw [List.sum_replicate, List.length_replicate, nsmul_eq_mul]
    field_simp

/-- C2: the policy loss is `mean(max(loss1, loss2))` over all flattened
response positions, with `loss1 = -advantages * ratio` and
`loss2 = -advantages * clip(ratio, 1 - cliprange, 1 + cliprange)`; and on any
input where `ratio = 1` everywhere and the advantages are the constant `A`,
the policy loss collapses to `-mean(advantages)`. -/
theorem pg_loss_formula_and_ratio_one (cliprange A : ℚ) (n : ℕ)
    (adv ratio : List ℚ) (hcr : 0 ≤ cliprange) :
    pg_loss cliprange adv ratio
      = listMean (List.zipWith max (pg_losses adv ratio)
          (pg_losses2 cliprange adv ratio)) ∧
    pg_loss cliprange (List.replicate n A) (List.replicate n 1)
      = -(listMean (List.replicate n A)) := by
  refine ⟨rfl, ?_⟩
  have hclip : npClip 1 (1 - cliprange) (1 + cliprange) = 1 := by
    unfold npClip
    rw [max_eq_left (by linarith), min_eq_left (by linarith)]
  unfold pg_loss pg_losses pg_losses2
  rw [List.zipWith_replicate, List.zipWith_replicate, List.zipWith_replicate,
    hclip, max_self]
  simp only [min_self]
  rw [listMean_replicate, listMean_replicate]
  rcases Nat.eq_zero_or_pos n with h | h
  · subst h; simp
  · rw [if_neg (Nat.pos_iff_ne_zero.mp h), if_neg (Nat.pos_iff_ne_zero.mp h)]
    ring

/-- Witness for `pg_loss_formula_and_ratio_one` at cliprange = 1/5, A = 3,
n = 2, adv = [2], ratio = [1]. -/
theorem pg_loss_formula_and_ratio_one_witness :
    (0 : ℚ) ≤ 1/5 ∧
    (pg_loss (1/5) [2] [1]
      = listMean (List.zipWith max (pg_losses [2] [1])
          (pg_losses2 (1/5) [2] [1])) ∧
    pg_loss (1/5) (List.replicate 2 3) (List.replicate 2 1)
      = -(listMean (List.replicate 2 (3 : ℚ)))) :=
  ⟨by norm_num, pg_loss_formula_and_ratio_one (1/5) 3 2 [2] [1] (by norm_num)⟩

theorem vpredclipped_zero (vpred all_values : List ℚ)
    (hlen : vpred.length = all_values.length) :
    vpredclipped 0 vpred all_values = all_values := by
  unfold vpredclipped
  induction vpred generalizing all_values with
  | nil =>
      cases all_values with
      | nil => rfl
      | cons w ws => simp at hlen
  | cons v vs ih =>
      cases all_values with
      | nil => simp at hlen
      | cons w ws =>
          simp only [List.zipWith_cons_cons]
          have hw : clip_by_value v (w - 0) (w + 0) = w := by
            unfold clip_by_value
            rw [sub_zero, add_zero]
            exact max_eq_right (min_le_right v w)
          rw [hw, ih ws (by simpa using hlen)]

/-- C3: the value loss is `0.5 * mean(max((new_value - returns)²,
(clipped_value - returns)²))` with `clipped_value` the projection of
`new_value` onto `[old_value - cliprange_value, old_value + cliprange_value]`;
and with `cliprange_value = 0` the clipped value equals the old value at every
element, so the clipped squared-error term is exactly `(old_value - returns)²`. -/
theorem vf_loss_value_clip (vpred all_values rets : List ℚ)
    (hlen : vpred.length = all_values.length) :
    (∀ crv : ℚ, vf_loss crv vpred all_values rets
      = (1/2) * listMean (List.zipWith max (vf_losses1 vpred rets)
          (vf_losses2 crv vpred all_values rets))) ∧
    (∀ v w : ℚ, clip_by_value v (w - 0) (w + 0) = w) ∧
    vpredclipped 0 vpred all_values = all_values ∧
    vf_loss 0 vpred all_values rets
      = (1/2) * listMean (List.zipWith max (vf_losses1 vpred rets)
          (vf_losses1 all_values rets)) := by
  refine ⟨fun _ => rfl, ?_, vpredclipped_zero vpred all_values hlen, ?_⟩
  · intro v w
    unfold clip_by_value
    rw [sub_zero, add_zero]
    exact max_eq_right (min_le_right v w)
  · unfold vf_loss vf_losses2
    rw [vpredclipped_zero vpred all_values hlen]
    rfl

/-- Witness for `vf_loss_value_clip` at vpred = [1, 2], old values = [3, 4],
returns = [0, 1]. -/
theorem vf_loss_value_clip_witness :
    ([1, 2] : List ℚ).length = ([3, 4] : List ℚ).length ∧
    ((∀ crv : ℚ, vf_loss crv [1, 2] [3, 4] [0, 1]
      = (1/2) * listMean (List.zipWith max (vf_losses1 [1, 2] [0, 1])
          (vf_losses2 crv [1, 2] [3, 4] [0, 1]))) ∧
    (∀ v w : ℚ, clip_by_value v (w - 0) (w + 0) = w) ∧
    vpredclipped 0 [1, 2] [3, 4] = [3, 4] ∧
    vf_loss 0 [1, 2] [3, 4] [0, 1]
      = (1/2) * listMean (List.zipWith max (vf_losses1 [1, 2] [0, 1])
          (vf_losses1 [3, 4] [0, 1]))) :=
  ⟨rfl, vf_loss_value_clip [1, 2] [3, 4] [0, 1] rfl⟩

/-! ## C5: Adaptive controller monotonicity -/

/-- C5 as stated is false: take the controller constructed with
`(init_kl_coef, target, horizon) = (1, 1, 1)` and hold `current = 0`,
`n_steps = 10` fixed — `value` and `horizon` are positive, `n_steps` is
positive, and `current < target` — yet the clipped error is `-1/5`, the
multiplier is `1 + (-1/5)·10/1 = -1`, so the first `update` flips `value` to
`-1` and the second brings it back to `1`: the second call strictly
*increases* `value` instead of decreasing it. -/
theorem adaptive_kl_monotone_counterexample :
    0 < (AdaptiveKLController.init 1 1 1).value ∧
    0 < (AdaptiveKLController.init 1 1 1).horizon ∧
    (0 : ℚ) < 10 ∧
    (0 : ℚ) < (AdaptiveKLController.init 1 1 1).target ∧
    ((AdaptiveKLController.init 1 1 1).update 0 10).value = -1 ∧
    (((AdaptiveKLController.init 1 1 1).update 0 10).update 0 10).value = 1 ∧
    ¬ (((AdaptiveKLController.init 1 1 1).update 0 10).update 0 10).value
        < ((AdaptiveKLController.init 1 1 1).update 0 10).value := by
  refine ⟨by norm_num [AdaptiveKLController.init],
    by norm_num [AdaptiveKLController.init], by norm_num,
    by norm_num [AdaptiveKLController.init], ?_, ?_, ?_⟩ <;>
    norm_num [AdaptiveKLController.init, AdaptiveKLController.update, npClip]

/-- C5 amended: for the Adaptive controller with positive `value`, `target`,
`horizon` and `n_steps`, and — in the decreasing case — `n_steps < 5·horizon`
(so that the per-step multiplier `1 + clip(current/target − 1, −0.2, 0.2) ·
n_steps / horizon` stays positive), iterated `update` calls with fixed
arguments are strictly monotone in the sign of `current − target`:
successive values strictly increase when `current > target`, strictly
decrease when `current < target`, and are unchanged when `current = target`. -/
theorem adaptive_kl_update_monotone (c : AdaptiveKLController)
    (current n_steps : ℚ) (k : ℕ)
    (hv : 0 < c.value) (ht : 0 < c.target) (hh : 0 < c.horizon)
    (hn : 0 < n_steps) :
    ((c.update current n_steps).value
      = c.value * (1 + npClip (current / c.target - 1) (-(1/5)) (1/5)
          * n_steps / c.horizon)) ∧
    (c.target < current →
      ((fun d => AdaptiveKLController.update d current n_steps)^[k] c).value
        < ((fun d => AdaptiveKLController.update d current n_steps)^[k + 1] c).value) ∧
    (current < c.target → n_steps < 5 * c.horizon →
      ((fun d => AdaptiveKLController.update d current n_steps)^[k + 1] c).value
        < ((fun d => AdaptiveKLController.update d current n_steps)^[k] c).value) ∧
    (current = c.target →
      ((fun d => AdaptiveKLController.update d current n_steps)^[k + 1] c).value
        = ((fun d => AdaptiveKLController.update d current n_steps)^[k] c).value) := by
  have hvk := AdaptiveKLController.iterate_update_value c current n_steps k
  have hvk1 := AdaptiveKLController.iterate_update_value c current n_steps (k + 1)
  refine ⟨rfl, ?_, ?_, ?_⟩
  · intro hcur
    have hx : 0 < current / c.target - 1 := by
      have : 1 < current / c.target := (one_lt_div ht).mpr hcur
      linarith
    have herr : 0 < npClip (current / c.target - 1) (-(1/5)) (1/5) := by
      unfold npClip
      rw [max_eq_left (by linarith)]
      exact lt_min hx (by norm_num)
    have hm1 : 1 < c.mult current n_steps := by
      unfold AdaptiveKLController.mult
      have : 0 < npClip (current / c.target - 1) (-(1/5)) (1/5) * n_steps / c.horizon :=
        div_pos (mul_pos herr hn) hh
      linarith
    rw [hvk, hvk1, pow_succ]
    have hpow : 0 < c.mult current n_steps ^ k := pow_pos (by linarith) k
    nlinarith [mul_pos (mul_pos hv hpow) (by linarith : (0:ℚ) < c.mult current n_steps - 1)]
  · intro hcur hns
    have hx : current / c.target - 1 < 0 := by
      have : current / c.target < 1 := (div_lt_one ht).mpr hcur
      linarith
    have herr_neg : npClip (current / c.target - 1) (-(1/5)) (1/5) < 0 := by
      unfold npClip
      have hmax : max (current / c.target - 1) (-(1/5)) < 0 :=
        max_lt hx (by norm_num)
      rw [min_eq_left (by linarith)]
      exact hmax
    have herr_lb : -(1/5) ≤ npClip (current / c.target - 1) (-(1/5)) (1/5) := by
      unfold npClip
      have hmax : -(1/5) ≤ max (current / c.target - 1) (-(1/5)) := le_max_right _ _
      have hmax0 : max (current / c.target - 1) (-(1/5)) < 0 :=
        max_lt hx (by norm_num)
      rw [min_eq_left (by linarith)]
      exact hmax
    have hm1 : c.mult current n_steps < 1 := by
      unfold AdaptiveKLController.mult
      have : npClip (current / c.target - 1) (-(1/5)) (1/5) * n_steps / c.horizon < 0 :=
        div_neg_of_neg_of_pos (mul_neg_of_neg_of_pos herr_neg hn) hh
      linarith
    have hm0 : 0 < c.mult current n_steps := by
      unfold AdaptiveKLController.mult
      have h1 : -(1/5) * n_steps ≤ npClip (current / c.target - 1) (-(1/5)) (1/5) * n_steps :=
        mul_le_mul_of_nonneg_right herr_lb (le_of_lt hn)
      have h2 : -(1/5) * n_steps / c.horizon
          ≤ npClip (current / c.target - 1) (-(1/5)) (1/5) * n_steps / c.horizon :=
        (div_le_div_right hh).mpr h1
      have h3 : (-1 : ℚ) < -(1/5) * n_steps / c.horizon := by
        rw [lt_div_iff hh]
        linarith
      linarith
    rw [hvk, hvk1, pow_succ]
    have hpow : 0 < c.mult current n_steps ^ k := pow_pos hm0 k
    nlinarith [mul_pos (mul_pos hv hpow) (by linarith : (0:ℚ) < 1 - c.mult current n_steps)]
  · intro hcur
    have herr : npClip (current / c.target - 1) (-(1/5)) (1/5) = 0 := by
      have hx : current / c.target - 1 = 0 := by
        rw [hcur, div_self (ne_of_gt ht)]
        ring
      unfold npClip
      rw [hx, max_eq_left (by norm_num), min_eq_left (by norm_num)]
    have hm : c.mult current n_steps = 1 := by
      unfold AdaptiveKLController.mult
      rw [herr]
      ring
    rw [hvk, hvk1, hm, one_pow, one_pow]

/-- Witness for `adaptive_kl_update_monotone` at the controller `(1, 1, 1)`,
`current = 2`, `n_steps = 1`, `k = 1`. -/
theorem adaptive_kl_update_monotone_witness :
    0 < (AdaptiveKLController.init 1 1 1).value ∧
    0 < (AdaptiveKLController.init 1 1 1).target ∧
    0 < (AdaptiveKLController.init 1 1 1).horizon ∧
    (0 : ℚ) < 1 ∧
    ((((AdaptiveKLController.init 1 1 1).update 2 1).value
      = (AdaptiveKLController.init 1 1 1).value
          * (1 + npClip (2 / (AdaptiveKLController.init 1 1 1).target - 1)
              (-(1/5)) (1/5) * 1 / (AdaptiveKLController.init 1 1 1).horizon)) ∧
    ((AdaptiveKLController.init 1 1 1).target < 2 →
      ((fun d => AdaptiveKLController.update d 2 1)^[1]
          (AdaptiveKLController.init 1 1 1)).value
        < ((fun d => AdaptiveKLController.update d 2 1)^[1 + 1]
            (AdaptiveKLController.init 1 1 1)).value) ∧
    ((2 : ℚ) < (AdaptiveKLController.init 1 1 1).target →
        (1 : ℚ) < 5 * (AdaptiveKLController.init 1 1 1).horizon →
      ((fun d => AdaptiveKLController.update d 2 1)^[1 + 1]
          (AdaptiveKLController.init 1 1 1)).value
        < ((fun d => AdaptiveKLController.update d 2 1)^[1]
            (AdaptiveKLController.init 1 1 1)).value) ∧
    ((2 : ℚ) = (AdaptiveKLController.init 1 1 1).target →
      ((fun d => AdaptiveKLController.update d 2 1)^[1 + 1]
          (AdaptiveKLController.init 1 1 1)).value
        = ((fun d => AdaptiveKLController.update d 2 1)^[1]
            (AdaptiveKLController.init 1 1 1)).value)) :=
  ⟨by norm_num [AdaptiveKLController.init],
    by norm_num [AdaptiveKLController.init],
    by norm_num [AdaptiveKLController.init], by norm_num,
    adaptive_kl_update_monotone (AdaptiveKLController.init 1 1 1) 2 1 1
      (by norm_num [AdaptiveKLController.init])
      (by norm_num [AdaptiveKLController.init])
      (by norm_num [AdaptiveKLController.init]) (by norm_num)⟩

/-! ## C6: Adaptive controller construction performs no validation -/

/-- C6 as stated is false: constructing the Adaptive controller with the
invalid configuration `target = 0`, `horizon = -1` succeeds and stores the
invalid parameters unchanged — there is no rejection at construction — while
the spec-side checked constructor rejects exactly this input. -/
theorem adaptive_kl_init_counterexample :
    AdaptiveKLController.init 1 0 (-1)
      = { value := 1, target := 0, horizon := -1 } ∧
    specCheckedAdaptiveInit 1 0 (-1) = none := by
  constructor
  · rfl
  · unfold specCheckedAdaptiveInit
    rw [if_pos (Or.inl rfl)]

/-- C6 amended: construction of the Adaptive controller performs no
validation: every parameter triple — including a zero `target` or a
non-positive `horizon` — is accepted, and the constructor merely stores the
three arguments unchanged; any failure is deferred to later `update` calls. -/
theorem adaptive_kl_init_stores_unvalidated (i t h : ℚ) :
    (AdaptiveKLController.init i t h).value = i ∧
    (AdaptiveKLController.init i t h).target = t ∧
    (AdaptiveKLController.init i t h).horizon = h :=
  ⟨rfl, rfl, rfl⟩

/-! ## C9: the Fixed controller never changes its value -/

/-- C9: the Fixed controller's `update` is a no-op: after any finite sequence
of `update(current, n_steps)` calls with arbitrary arguments, `value` still
equals the coefficient supplied at construction. -/
theorem fixed_kl_update_noop (kl_coef : ℚ) (calls : List (ℚ × ℚ)) :
    (calls.foldl (fun c p => FixedKLController.update c p.1 p.2)
        (FixedKLController.init kl_coef)).value = kl_coef := by
  have h : ∀ c : FixedKLController,
      calls.foldl (fun c p => FixedKLController.update c p.1 p.2) c = c := by
    induction calls with
    | nil => intro c; rfl
    | cons p ps ih => intro c; exact ih (FixedKLController.update c p.1 p.2)
  rw [h]
  rfl

/-! ## C4: termination condition of the `learn` loop -/

theorem learnLoop_some_bounds (total_steps epochs nBatches ppo_epochs : ℕ) :
    ∀ fuel s r, learnLoop total_steps epochs nBatches ppo_epochs fuel s = some r →
      total_steps ≤ r.iter_count ∧ epochs < r.epoch := by
  intro fuel
  induction fuel with
  | zero =>
      intro s r h
      exact absurd h (by simp [learnLoop])
  | succ f ih =>
      intro s r h
      unfold learnLoop at h
      by_cases hc : s.iter_count < total_steps ∨ s.epoch ≤ epochs
      · rw [if_pos hc] at h
        exact ih _ r h
      · rw [if_neg hc] at h
        injection h with h
        subst h
        push_neg at hc
        exact hc

/-- C4: the `learn` loop continues as long as `iter_count < total_steps` OR
`epoch ≤ epochs` (first conjunct: the loop step is guarded by exactly that
condition), any state in which it terminates satisfies both
`iter_count ≥ total_steps` and `epoch > epochs` (second conjunct), and with
`total_steps = 0` and `epochs = 0` the loop still executes exactly one full
epoch before exiting (third conjunct: one body ran, `epoch` reached 1). -/
theorem learn_loop_or_condition (total_steps epochs nBatches ppo_epochs fuel : ℕ)
    (s r : LoopCounters) :
    (learnLoop total_steps epochs nBatches ppo_epochs (fuel + 1) s
      = if s.iter_count < total_steps ∨ s.epoch ≤ epochs then
          learnLoop total_steps epochs nBatches ppo_epochs fuel
            { iter_count := s.iter_count + nBatches * ppo_epochs
              epoch := s.epoch + 1
              bodies := s.bodies + 1 }
        else some s) ∧
    (learnLoop total_steps epochs nBatches ppo_epochs fuel s = some r →
      total_steps ≤ r.iter_count ∧ epochs < r.epoch) ∧
    learnLoop 0 0 nBatches ppo_epochs 2
        { iter_count := 0, epoch := 0, bodies := 0 }
      = some { iter_count := nBatches * ppo_epochs, epoch := 1, bodies := 1 } := by
  refine ⟨rfl,
    learnLoop_some_bounds total_steps epochs nBatches ppo_epochs fuel s r, ?_⟩
  simp [learnLoop]

/-- Witness for `learn_loop_or_condition` with both bounds 2, one mini-batch,
one pass, one unit of fuel, starting from zeroed counters. -/
theorem learn_loop_or_condition_witness :
    (learnLoop 2 2 1 1 (1 + 1) { iter_count := 0, epoch := 0, bodies := 0 }
      = if (0 : ℕ) < 2 ∨ (0 : ℕ) ≤ 2 then
          learnLoop 2 2 1 1 1
            { iter_count := 0 + 1 * 1, epoch := 0 + 1, bodies := 0 + 1 }
        else some { iter_count := 0, epoch := 0, bodies := 0 }) ∧
    (learnLoop 2 2 1 1 1 { iter_count := 0, epoch := 0, bodies := 0 }
        = some { iter_count := 3, epoch := 3, bodies := 3 } →
      2 ≤ (3 : ℕ) ∧ 2 < (3 : ℕ)) ∧
    learnLoop 0 0 1 1 2 { iter_count := 0, epoch := 0, bodies := 0 }
      = some { iter_count := 1 * 1, epoch := 1, bodies := 1 } :=
  learn_loop_or_condition 2 2 1 1 1
    { iter_count := 0, epoch := 0, bodies := 0 }
    { iter_count := 3, epoch := 3, bodies := 3 }

/-! ## C7 and C10: per-mini-batch structure of `learn` -/

theorem runPasses_succ_eq (losses : ℕ → LossOut) :
    ∀ k (s : TrainState), runPasses losses (k + 1) s
      = { iter_count := s.iter_count + (k + 1)
          kl_ctl := s.kl_ctl
          mean_kl := some (losses k).mean_kl
          logs := some ⟨(losses k).loss, (losses k).pg_loss, (losses k).vf_loss⟩
          kl_updates := s.kl_updates } := by
  intro k
  induction k with
  | zero => intro s; rfl
  | succ m ih =>
      intro s
      show innerPass (losses (m + 1)) (runPasses losses (m + 1) s) = _
      rw [ih s]
      rfl

/-- C7: for every mini-batch, exactly `ppo_epochs ≥ 1` passes run over it —
each recording its own loss and mean KL and incrementing `iter_count` by one,
for a total increment of `ppo_epochs` — after which the KL controller's
`update` is invoked exactly once (the invocation count rises by one), with the
mean KL recorded by the *last* pass as the observed KL and the configured
batch size as `n_steps`. -/
theorem process_batch_contract (ppo_epochs : ℕ) (losses : ℕ → LossOut)
    (batch_size : ℚ) (s : TrainState) (h : 1 ≤ ppo_epochs) :
    processBatch ppo_epochs losses batch_size s
      = some { iter_count := s.iter_count + ppo_epochs
               kl_ctl := s.kl_ctl.update (losses (ppo_epochs - 1)).mean_kl batch_size
               mean_kl := some (losses (ppo_epochs - 1)).mean_kl
               logs := some ⟨(losses (ppo_epochs - 1)).loss,
                 (losses (ppo_epochs - 1)).pg_loss, (losses (ppo_epochs - 1)).vf_loss⟩
               kl_updates := s.kl_updates + 1 } := by
  obtain ⟨k, rfl⟩ : ∃ k, ppo_epochs = k + 1 := ⟨ppo_epochs - 1, by omega⟩
  unfold processBatch
  rw [runPasses_succ_eq]
  simp only [Nat.add_sub_cancel]
  rfl

/-- Witness for `process_batch_contract` with two passes, the loss sequence
`losses i = (i, 0, 0, i)`, batch size 4, a Fixed controller at 1, and the
fresh trainer state. -/
theorem process_batch_contract_witness :
    1 ≤ 2 ∧
    processBatch 2 (fun i => ⟨(i : ℚ), 0, 0, (i : ℚ)⟩) 4
        (initTrainState (KLController.fixed ⟨1⟩))
      = some { iter_count := (initTrainState (KLController.fixed ⟨1⟩)).iter_count + 2
               kl_ctl := (initTrainState (KLController.fixed ⟨1⟩)).kl_ctl.update
                 ((2 - 1 : ℕ) : ℚ) 4
               mean_kl := some ((2 - 1 : ℕ) : ℚ)
               logs := some ⟨((2 - 1 : ℕ) : ℚ), 0, 0⟩
               kl_updates := (initTrainState (KLController.fixed ⟨1⟩)).kl_updates + 1 } :=
  ⟨by norm_num,
    process_batch_contract 2 (fun i => ⟨(i : ℚ), 0, 0, (i : ℚ)⟩) 4
      (initTrainState (KLController.fixed ⟨1⟩)) (by norm_num)⟩

/-- C10: `ppo_epochs ≥ 1` is an implicit precondition of the training loop:
with at least one pass, by the time `post_backward_callback` runs the
attributes `self.mean_kl` and `self.logs` were assigned by the most recent
pass and the callback succeeds; with `ppo_epochs = 0` the inner loop runs zero
passes and the callback on the very first mini-batch reads the never-assigned
attributes and fails. -/
theorem process_batch_requires_pass (losses : ℕ → LossOut)
    (batch_size : ℚ) (kl0 : KLController) (ppo_epochs : ℕ) :
    (1 ≤ ppo_epochs →
      (runPasses losses ppo_epochs (initTrainState kl0)).mean_kl
          = some (losses (ppo_epochs - 1)).mean_kl ∧
      (runPasses losses ppo_epochs (initTrainState kl0)).logs
          = some ⟨(losses (ppo_epochs - 1)).loss, (losses (ppo_epochs - 1)).pg_loss,
              (losses (ppo_epochs - 1)).vf_loss⟩ ∧
      (processBatch ppo_epochs losses batch_size (initTrainState kl0)).isSome = true) ∧
    processBatch 0 losses batch_size (initTrainState kl0) = none := by
  constructor
  · intro h
    obtain ⟨k, rfl⟩ : ∃ k, ppo_epochs = k + 1 := ⟨ppo_epochs - 1, by omega⟩
    refine ⟨?_, ?_, ?_⟩
    · rw [runPasses_succ_eq]
      simp
    · rw [runPasses_succ_eq]
      simp
    · unfold processBatch
      rw [runPasses_succ_eq]
      rfl
  · rfl

/-- Witness for `process_batch_requires_pass` with the loss sequence
`losses i = (i, 0, 0, i)`, batch size 4, a Fixed controller at 1, and one
pass. -/
theorem process_batch_requires_pass_witness :
    ((1 ≤ 1 →
      (runPasses (fun i => ⟨(i : ℚ), 0, 0, (i : ℚ)⟩) 1
          (initTrainState (KLController.fixed ⟨1⟩))).mean_kl
          = some ((1 - 1 : ℕ) : ℚ) ∧
      (runPasses (fun i => ⟨(i : ℚ), 0, 0, (i : ℚ)⟩) 1
          (initTrainState (KLController.fixed ⟨1⟩))).logs
          = some ⟨((1 - 1 : ℕ) : ℚ), 0, 0⟩ ∧
      (processBatch 1 (fun i => ⟨(i : ℚ), 0, 0, (i : ℚ)⟩) 4
          (initTrainState (KLController.fixed ⟨1⟩))).isSome = true) ∧
    processBatch 0 (fun i => ⟨(i : ℚ), 0, 0, (i : ℚ)⟩) 4
        (initTrainState (KLController.fixed ⟨1⟩)) = none) :=
  process_batch_requires_pass (fun i => ⟨(i : ℚ), 0, 0, (i : ℚ)⟩) 4
    (KLController.fixed ⟨1⟩) 1

end TrlxPPO
